import Mathlib

/-!
Verification development for the vibesdk projects / MCP-servers CRUD subsystem
and the document-attachment upload hook.

The TypeScript sources are embedded shallowly:
* JavaScript string primitives (`trim`, `endsWith`, `substring`, the
  trailing-slash regex replace) are modelled over the character list of a
  Lean `String`, so that every definition evaluates inside the kernel.
* The relational store (drizzle + SQLite) is modelled as lists of rows; a
  `select ... where ... limit 1` becomes `List.find?`, an `update ... where`
  becomes a `List.map` guarded by the row predicate, an `insert` appends.
* Timestamps (`new Date()`) and generated ids (`generateId()`) are passed
  explicitly as arguments.
* Fallible HTTP probes are modelled by a `ProbeOutcome` value: either a
  response carrying its numeric status code, or a thrown failure carrying
  its description.
-/

/-! ## JavaScript string primitives -/

/-- JavaScript `s.endsWith(suffix)`, over character lists. -/
def jsEndsWith (s suffix : String) : Bool :=
  suffix.data.isSuffixOf s.data

/-- JavaScript `s.substring(0, n)`: the first `n` characters of `s`. -/
def jsTake (s : String) (n : Nat) : String :=
  ⟨s.data.take n⟩

/-- JavaScript `s.trim()`: strip leading and trailing whitespace. -/
def jsTrim (s : String) : String :=
  ⟨((s.data.dropWhile Char.isWhitespace).reverse.dropWhile Char.isWhitespace).reverse⟩

/-- JavaScript `s.replace(/\/$/, '')`: drop a single trailing slash when present. -/
def stripTrailingSlash (s : String) : String :=
  if jsEndsWith s "/" then ⟨s.data.dropLast⟩ else s

/-! ## Connection-test probe URL (MCPServersController.testConnection)

`const testUrl = server.url.endsWith('/health') ? server.url
               : server.url.replace(/\/$/, '') + '/health'` -/

/-- Probe URL used by the connection test, as a function of the configured url. -/
def resolveProbeUrl (url : String) : String :=
  if jsEndsWith url "/health" then url
  else stripTrailingSlash url ++ "/health"

/-! ## Document truncation (useDocumentUpload.processDocumentFile)

```
let truncated = false;
if (textContent.length > maxChars) {
    textContent = textContent.substring(0, maxChars) + '\n\n... [Content truncated]';
    truncated = true;
}
```
-/

/-- Default character budget `MAX_DOCUMENT_CHARS`. -/
def MAX_DOCUMENT_CHARS : Nat := 100000

/-- Default attachment-count limit `MAX_DOCUMENTS_PER_MESSAGE`. -/
def MAX_DOCUMENTS_PER_MESSAGE : Nat := 3

/-- Marker appended by `processDocumentFile` when clipping long content. -/
def truncationMarker : String := "\n\n... [Content truncated]"

/-- Truncation step of `processDocumentFile`: returns the stored
`textContent` and the `truncated` flag. -/
def truncateContent (maxChars : Nat) (textContent : String) : String × Bool :=
  if textContent.length > maxChars then
    (jsTake textContent maxChars ++ truncationMarker, true)
  else
    (textContent, false)


/-! ## Data model (migration + drizzle schema) -/

/-- Project status enum: `draft | active | archived`, default `draft`. -/
inductive ProjectStatus where
  | draft | active | archived
deriving DecidableEq, BEq, Repr

/-- MCP transport enum: `http | sse | stdio`, default `http`. -/
inductive Transport where
  | http | sse | stdio
deriving DecidableEq, BEq, Repr

/-- MCP auth type enum: `none | bearer | api-key`, default `none`. -/
inductive AuthType where
  | none | bearer | apiKey
deriving DecidableEq, BEq, Repr

/-- MCP reachability status enum: `connected | disconnected | error | unknown`. -/
inductive MCPStatus where
  | connected | disconnected | error | unknown
deriving DecidableEq, BEq, Repr

/-- Row of the `projects` table. -/
structure Project where
  id : String
  userId : String
  name : String
  description : Option String
  status : ProjectStatus
  createdAt : Nat
  updatedAt : Nat
deriving DecidableEq, Repr

/-- Row of the `apps` table (only the columns the services read). -/
structure App where
  id : String
  userId : String
deriving DecidableEq, Repr

/-- Row of the `project_apps` junction table. -/
structure ProjectApp where
  id : String
  projectId : String
  appId : String
  addedAt : Nat
deriving DecidableEq, Repr

/-- Row of the `mcp_servers` table. -/
structure MCPServer where
  id : String
  userId : String
  name : String
  url : String
  transport : Transport
  authType : AuthType
  authSecretId : Option String
  enabled : Bool
  status : MCPStatus
  lastChecked : Option Nat
  lastError : Option String
  description : Option String
  createdAt : Nat
  updatedAt : Nat
deriving DecidableEq, Repr

/-- The relational store: one list of rows per table. -/
structure DB where
  projects : List Project
  apps : List App
  projectApps : List ProjectApp
  mcpServers : List MCPServer
deriving DecidableEq, Repr

/-- Ownership-scoped row predicate for projects (`id = ? and user_id = ?`). -/
def ownedProject (uid pid : String) (p : Project) : Bool :=
  p.id == pid && p.userId == uid

/-- Ownership-scoped row predicate for apps. -/
def ownedApp (uid aid : String) (a : App) : Bool :=
  a.id == aid && a.userId == uid

/-- Ownership-scoped row predicate for MCP servers. -/
def ownedServer (uid sid : String) (s : MCPServer) : Bool :=
  s.id == sid && s.userId == uid

/-- Link-row predicate for a given (projectId, appId) pair. -/
def linkRow (pid aid : String) (pa : ProjectApp) : Bool :=
  pa.projectId == pid && pa.appId == aid

/-- Number of `project_apps` rows referencing a project (the appCount query). -/
def appCountOf (db : DB) (pid : String) : Nat :=
  (db.projectApps.filter (fun pa => pa.projectId == pid)).length

/-- Number of `project_apps` rows for one (projectId, appId) pair. -/
def linkCount (db : DB) (pid aid : String) : Nat :=
  (db.projectApps.filter (linkRow pid aid)).length

/-! ## ProjectsService -/

/-- Return type of `getProject` / `getUserProjects`: a project annotated with
its app count. -/
structure ProjectWithAppCount extends Project where
  appCount : Nat
deriving DecidableEq, Repr

namespace ProjectsService

/-- `createProject(userId, {name, description?})`: insert a fresh row with
status `draft`, then re-select it by id. -/
def createProject (uid newId : String) (now : Nat)
    (name : String) (description : Option String) (db : DB) :
    Option Project × DB :=
  let newProject : Project :=
    { id := newId, userId := uid, name := name, description := description
      status := .draft, createdAt := now, updatedAt := now }
  let db' : DB := { db with projects := db.projects ++ [newProject] }
  (db'.projects.find? (fun p => p.id == newId), db')

/-- `getProject(userId, projectId)`: ownership-scoped select, annotated with
the app count; `null` when no owned row matches. -/
def getProject (uid pid : String) (db : DB) : Option ProjectWithAppCount :=
  match db.projects.find? (ownedProject uid pid) with
  | none => none
  | some p => some { p with appCount := appCountOf db pid }

/-- Partial-update payload of `updateProject` (absent field = not supplied). -/
structure ProjectUpdate where
  name : Option String := none
  description : Option String := none
  status : Option ProjectStatus := none
deriving DecidableEq, Repr

/-- Field application of the `updateProject` set-clause: only supplied fields
change, `updatedAt` is always refreshed. -/
def applyProjectUpdate (data : ProjectUpdate) (now : Nat) (p : Project) : Project :=
  { p with
    name := data.name.getD p.name
    description := match data.description with
      | some d => some d
      | none => p.description
    status := data.status.getD p.status
    updatedAt := now }

/-- `updateProject(userId, projectId, data)`: ownership check, update by id,
re-select by id. -/
def updateProject (uid pid : String) (data : ProjectUpdate) (now : Nat) (db : DB) :
    Option Project × DB :=
  match db.projects.find? (ownedProject uid pid) with
  | none => (none, db)
  | some _ =>
    let db' : DB := { db with
      projects := db.projects.map
        (fun p => if p.id == pid then applyProjectUpdate data now p else p) }
    (db'.projects.find? (fun p => p.id == pid), db')

/-- `deleteProject(userId, projectId)`: ownership check, delete by id; the
storage layer cascades the delete to `project_apps` rows of the project. -/
def deleteProject (uid pid : String) (db : DB) : Bool × DB :=
  match db.projects.find? (ownedProject uid pid) with
  | none => (false, db)
  | some _ =>
    (true,
     { db with
       projects := db.projects.filter (fun p => !(p.id == pid))
       projectApps := db.projectApps.filter (fun pa => !(pa.projectId == pid)) })

/-- `addAppToProject(userId, projectId, appId)`: verify project ownership,
verify app ownership, then insert the link unless it already exists. -/
def addAppToProject (uid pid aid newId : String) (now : Nat) (db : DB) :
    Bool × DB :=
  match db.projects.find? (ownedProject uid pid) with
  | none => (false, db)
  | some _ =>
    match db.apps.find? (ownedApp uid aid) with
    | none => (false, db)
    | some _ =>
      match db.projectApps.find? (linkRow pid aid) with
      | some _ => (true, db)
      | none =>
        (true,
         { db with projectApps :=
            db.projectApps ++ [{ id := newId, projectId := pid, appId := aid, addedAt := now }] })

/-- `removeAppFromProject(userId, projectId, appId)`: verify project ownership,
then delete the link unconditionally. -/
def removeAppFromProject (uid pid aid : String) (db : DB) : Bool × DB :=
  match db.projects.find? (ownedProject uid pid) with
  | none => (false, db)
  | some _ =>
    (true, { db with projectApps := db.projectApps.filter (fun pa => !(linkRow pid aid pa)) })

/-- `getProjectApps(userId, projectId)`: verify project ownership (empty list
when it fails), then inner-join `project_apps` to `apps`. -/
def getProjectApps (uid pid : String) (db : DB) : List App :=
  match db.projects.find? (ownedProject uid pid) with
  | none => []
  | some _ =>
    (db.projectApps.filter (fun pa => pa.projectId == pid)).filterMap
      (fun pa => db.apps.find? (fun a => a.id == pa.appId))

end ProjectsService

/-! ## MCPServersService -/

namespace MCPServersService

/-- Create payload `MCPServerInput` (optional fields absent = not supplied). -/
structure MCPServerInput where
  name : String
  url : String
  transport : Option Transport := none
  authType : Option AuthType := none
  authSecretId : Option (Option String) := none
  description : Option (Option String) := none
  enabled : Option Bool := none
deriving DecidableEq, Repr

/-- `createServer(userId, data)`: insert with defaults
(transport `http`, authType `none`, enabled `true`, status `unknown`,
lastChecked/lastError `null`), then re-select by id. -/
def createServer (uid newId : String) (now : Nat) (data : MCPServerInput) (db : DB) :
    Option MCPServer × DB :=
  let newServer : MCPServer :=
    { id := newId, userId := uid, name := data.name, url := data.url
      transport := data.transport.getD .http
      authType := data.authType.getD .none
      authSecretId := (data.authSecretId.getD none)
      description := (data.description.getD none)
      enabled := data.enabled.getD true
      status := .unknown, lastChecked := none, lastError := none
      createdAt := now, updatedAt := now }
  let db' : DB := { db with mcpServers := db.mcpServers ++ [newServer] }
  (db'.mcpServers.find? (fun s => s.id == newId), db')

/-- `getServer(userId, serverId)`: ownership-scoped select, `null` when no
owned row matches. -/
def getServer (uid sid : String) (db : DB) : Option MCPServer :=
  db.mcpServers.find? (ownedServer uid sid)

/-- Partial-update payload of `updateServer`: `Partial<MCPServerInput>`.
Outer `Option` = field supplied, inner `Option` = nullable column value. -/
structure ServerUpdate where
  name : Option String := none
  url : Option String := none
  transport : Option Transport := none
  authType : Option AuthType := none
  authSecretId : Option (Option String) := none
  description : Option (Option String) := none
  enabled : Option Bool := none
deriving DecidableEq, Repr

/-- Field application of the `updateServer` set-clause: only supplied fields
change, `updatedAt` is always refreshed; status, lastChecked and lastError are
not part of the clause. -/
def applyServerUpdate (data : ServerUpdate) (now : Nat) (s : MCPServer) : MCPServer :=
  { s with
    name := data.name.getD s.name
    url := data.url.getD s.url
    transport := data.transport.getD s.transport
    authType := data.authType.getD s.authType
    authSecretId := data.authSecretId.getD s.authSecretId
    description := data.description.getD s.description
    enabled := data.enabled.getD s.enabled
    updatedAt := now }

/-- `updateServer(userId, serverId, data)`: ownership check, update by id,
re-select by id. -/
def updateServer (uid sid : String) (data : ServerUpdate) (now : Nat) (db : DB) :
    Option MCPServer × DB :=
  match db.mcpServers.find? (ownedServer uid sid) with
  | none => (none, db)
  | some _ =>
    let db' : DB := { db with
      mcpServers := db.mcpServers.map
        (fun s => if s.id == sid then applyServerUpdate data now s else s) }
    (db'.mcpServers.find? (fun s => s.id == sid), db')

/-- `deleteServer(userId, serverId)`: ownership check then delete by id. -/
def deleteServer (uid sid : String) (db : DB) : Bool × DB :=
  match db.mcpServers.find? (ownedServer uid sid) with
  | none => (false, db)
  | some _ =>
    (true, { db with mcpServers := db.mcpServers.filter (fun s => !(s.id == sid)) })

/-- `updateServerStatus(userId, serverId, status, error?)`: ownership check,
then set status, lastChecked, lastError and refresh updatedAt. -/
def updateServerStatus (uid sid : String) (status : MCPStatus)
    (error : Option String) (now : Nat) (db : DB) : Option MCPServer × DB :=
  match db.mcpServers.find? (ownedServer uid sid) with
  | none => (none, db)
  | some _ =>
    let db' : DB := { db with
      mcpServers := db.mcpServers.map
        (fun s => if s.id == sid then
            { s with status := status, lastChecked := some now
                     lastError := error, updatedAt := now }
          else s) }
    (db'.mcpServers.find? (fun s => s.id == sid), db')

/-- `toggleServer(userId, serverId)`: ownership check, flip `enabled`,
refresh `updatedAt`, re-select by id. -/
def toggleServer (uid sid : String) (now : Nat) (db : DB) :
    Option MCPServer × DB :=
  match db.mcpServers.find? (ownedServer uid sid) with
  | none => (none, db)
  | some existing =>
    let db' : DB := { db with
      mcpServers := db.mcpServers.map
        (fun s => if s.id == sid then
            { s with enabled := !existing.enabled, updatedAt := now }
          else s) }
    (db'.mcpServers.find? (fun s => s.id == sid), db')

end MCPServersService

/-! ## Connection test (MCPServersController.testConnection) -/

/-- Outcome of the one-shot `fetch` probe: either an HTTP response carrying
its numeric status code, or a thrown failure carrying its description. -/
inductive ProbeOutcome where
  | response (statusCode : Nat)
  | failure (description : String)
deriving DecidableEq, Repr

/-- `response.ok`: status code in the 2xx range. -/
def responseOk (statusCode : Nat) : Bool :=
  200 ≤ statusCode && statusCode < 300

/-- Response payload `MCPServerTestData` of the connection test. -/
structure MCPServerTestData where
  success : Bool
  status : MCPStatus
  message : String
  latencyMs : Nat
deriving DecidableEq, Repr

/-- Classification step of `testConnection`: map the probe outcome and the
elapsed milliseconds to status, message, latency and the success flag
(`success: status === 'connected'`). -/
def classifyProbe (outcome : ProbeOutcome) (elapsedMs : Nat) : MCPServerTestData :=
  let statusMessage : MCPStatus × String :=
    match outcome with
    | .response code =>
      if responseOk code then
        (.connected, "Connected successfully (" ++ toString elapsedMs ++ "ms)")
      else
        (.error, "Server returned status " ++ toString code)
    | .failure description => (.disconnected, description)
  { success := statusMessage.1 == .connected
    status := statusMessage.1
    message := statusMessage.2
    latencyMs := elapsedMs }

namespace MCPServersController

/-- `testConnection`: look up the owned server (404 modelled as `none`),
resolve the probe URL, classify the probe outcome, persist the result via
`updateServerStatus` (message stored only for error/disconnected), and
return the test data. -/
def testConnection (uid sid : String) (probe : String → ProbeOutcome)
    (elapsedMs now : Nat) (db : DB) : Option MCPServerTestData × DB :=
  match MCPServersService.getServer uid sid db with
  | none => (none, db)
  | some server =>
    let result := classifyProbe (probe (resolveProbeUrl server.url)) elapsedMs
    let db' := (MCPServersService.updateServerStatus uid sid result.status
      (if result.status == .error || result.status == .disconnected
        then some result.message else none) now db).2
    (some result, db')

end MCPServersController

/-! ## Controllers: create endpoints -/

/-- Controller result: a success envelope carrying data, or an error envelope
carrying a message and an HTTP status. -/
inductive CtrlOutcome (α : Type) where
  | ok (data : α)
  | err (message : String) (status : Nat)
deriving DecidableEq, Repr

namespace ProjectsController

/-- Parsed JSON body of `POST /api/projects` (absent field = `undefined`). -/
structure CreateProjectBody where
  name : Option String := none
  description : Option String := none
deriving DecidableEq, Repr

/-- `createProject` controller: reject a missing or whitespace-only name with
a 400 envelope before calling the service; otherwise create with trimmed
name and description. The `err 500` branch models the catch-all envelope and
is unreachable when the generated id is fresh. -/
def createProject (uid : String) (body : CreateProjectBody)
    (newId : String) (now : Nat) (db : DB) : CtrlOutcome Project × DB :=
  match body.name with
  | none => (.err "Project name is required" 400, db)
  | some n =>
    if jsTrim n == "" then
      (.err "Project name is required" 400, db)
    else
      let r := ProjectsService.createProject uid newId now
        (jsTrim n) (body.description.map jsTrim) db
      match r.1 with
      | some p => (.ok p, r.2)
      | none => (.err "Failed to create project" 500, r.2)

end ProjectsController

namespace MCPServersController

/-- Parsed JSON body of `POST /api/mcp` (absent field = `undefined`). -/
structure CreateServerBody where
  name : Option String := none
  url : Option String := none
  transport : Option Transport := none
  authType : Option AuthType := none
  authSecretId : Option String := none
  description : Option String := none
  enabled : Option Bool := none
deriving DecidableEq, Repr

/-- `createServer` controller: reject missing/whitespace-only name, then
missing/whitespace-only url, with 400 envelopes before calling the service;
otherwise create with trimmed name, url and description. -/
def createServer (uid : String) (body : CreateServerBody)
    (newId : String) (now : Nat) (db : DB) : CtrlOutcome MCPServer × DB :=
  match body.name with
  | none => (.err "Server name is required" 400, db)
  | some n =>
    if jsTrim n == "" then
      (.err "Server name is required" 400, db)
    else
      match body.url with
      | none => (.err "Server URL is required" 400, db)
      | some u =>
        if jsTrim u == "" then
          (.err "Server URL is required" 400, db)
        else
          let input : MCPServersService.MCPServerInput :=
            { name := jsTrim n
              url := jsTrim u
              transport := body.transport
              authType := body.authType
              authSecretId := body.authSecretId.map some
              description := body.description.map (fun d => some (jsTrim d))
              enabled := body.enabled }
          let r := MCPServersService.createServer uid newId now input db
          match r.1 with
          | some s => (.ok s, r.2)
          | none => (.err "Failed to create MCP server" 500, r.2)

end MCPServersController

/-! ## Document upload hook (useDocumentUpload) -/

/-- Document attachment produced by `processDocumentFile`. -/
structure DocumentAttachment where
  id : String
  filename : String
  mimeType : String
  textContent : String
  size : Nat
  lineCount : Nat
  truncated : Bool
  extension : String
deriving DecidableEq, Repr

/-- Line count via `textContent.split('\n').length`. -/
def countLines (s : String) : Nat :=
  (s.data.filter (fun c => c == '\n')).length + 1

/-- Attachment construction of `processDocumentFile` after text extraction:
clip the extracted text with `truncateContent` and record the flag. -/
def processDocumentFile (maxChars : Nat) (id filename mimeType extension : String)
    (size : Nat) (extractedText : String) : DocumentAttachment :=
  let clipped := truncateContent maxChars extractedText
  { id := id, filename := filename, mimeType := mimeType
    textContent := clipped.1, size := size
    lineCount := countLines clipped.1
    truncated := clipped.2, extension := extension }

namespace useDocumentUpload

/-- `addDocuments`: reject the whole batch when current count plus batch size
would exceed the limit; otherwise append the successfully processed files. -/
def addDocuments {F : Type} (maxDocuments : Nat)
    (documents : List DocumentAttachment) (files : List F)
    (process : F → Option DocumentAttachment) : List DocumentAttachment :=
  if documents.length + files.length > maxDocuments then documents
  else documents ++ files.filterMap process

/-- `removeDocument`: drop the attachment with the given id. -/
def removeDocument (id : String) (documents : List DocumentAttachment) :
    List DocumentAttachment :=
  documents.filter (fun doc => !(doc.id == id))

/-- `clearDocuments`: reset to the empty list. -/
def clearDocuments : List DocumentAttachment := []

end useDocumentUpload

/-! ## Sample rows used by the witnesses -/

/-- Sample project owned by user `u1`. -/
def sampleProject : Project :=
  { id := "p1", userId := "u1", name := "Demo", description := some "d"
    status := .draft, createdAt := 1, updatedAt := 1 }

/-- Sample app owned by user `u1`. -/
def sampleApp : App := { id := "a1", userId := "u1" }

/-- Sample link between `p1` and `a1`. -/
def sampleLink : ProjectApp :=
  { id := "l1", projectId := "p1", appId := "a1", addedAt := 1 }

/-- Sample MCP server owned by user `u1`. -/
def sampleServer : MCPServer :=
  { id := "s1", userId := "u1", name := "srv", url := "http://a"
    transport := .http, authType := .none, authSecretId := none
    enabled := true, status := .unknown, lastChecked := none
    lastError := none, description := none, createdAt := 1, updatedAt := 1 }

/-- Sample store with one row per table, all owned by `u1`. -/
def sampleDB : DB :=
  { projects := [sampleProject], apps := [sampleApp]
    projectApps := [sampleLink], mcpServers := [sampleServer] }

/-- Sample store with no link row between `p1` and `a1`. -/
def sampleDBNoLink : DB := { sampleDB with projectApps := [] }

/-- Sample document attachment. -/
def sampleDoc : DocumentAttachment :=
  { id := "d1", filename := "a.txt", mimeType := "text/plain"
    textContent := "hello", size := 5, lineCount := 1
    truncated := false, extension := ".txt" }

/-- Repeated calls of `addAppToProject` on the same (projectId, appId) pair,
with a fresh generated id and timestamp per call. -/
def ProjectsService.addAppIter (uid pid aid : String)
    (ids : Nat → String) (times : Nat → Nat) (db : DB) : Nat → DB
  | 0 => db
  | n + 1 =>
    (ProjectsService.addAppToProject uid pid aid (ids n) (times n)
      (ProjectsService.addAppIter uid pid aid ids times db n)).2

/-! ## Helper lemmas on ownership-scoped queries -/

/-- Strengthening a first-match by `q` to a first-match by `q && r` when the
found element also satisfies `r`. -/
theorem find?_and_of_find? {α : Type} (q r : α → Bool) {l : List α} {s : α}
    (h : l.find? q = some s) (hr : r s = true) :
    l.find? (fun x => q x && r x) = some s := by
  induction l with
  | nil => simp at h
  | cons a l ih =>
    by_cases ha : q a
    · rw [List.find?_cons_of_pos _ ha] at h
      cases h
      exact List.find?_cons_of_pos _ (by simp [ha, hr])
    · rw [List.find?_cons_of_neg _ ha] at h
      rw [List.find?_cons_of_neg _ (by simp [ha])]
      exact ih h

/-- A row-wise update guarded by the first-match predicate rewrites the first
match and keeps it the first match, provided the update preserves the
predicate. -/
theorem find?_map_update {α : Type} (q : α → Bool) (f : α → α)
    (hf : ∀ x, q (f x) = q x) {l : List α} {s : α}
    (h : l.find? q = some s) :
    (l.map (fun x => if q x then f x else x)).find? q = some (f s) := by
  induction l with
  | nil => simp at h
  | cons a l ih =>
    by_cases ha : q a
    · rw [List.find?_cons_of_pos _ ha] at h
      cases h
      simp only [List.map_cons, if_pos ha]
      exact List.find?_cons_of_pos _ (by rw [hf]; exact ha)
    · rw [List.find?_cons_of_neg _ ha] at h
      simp only [List.map_cons, if_neg ha]
      rw [List.find?_cons_of_neg _ ha]
      exact ih h

/-! ## C1: ownership mismatch is indistinguishable from absence -/

/-- C1. For every user id `uid` and resource ids `pid`, `sid`, when no stored
project row with id `pid` (resp. MCP server row with id `sid`) is owned by
`uid` — which covers both a row owned by a different user and no row at all —
every read, update or delete operation returns its not-found outcome
(`none`, `false`, or `[]`) and leaves the store unchanged: absence of an
ownership match is indistinguishable from absence of the resource. -/
theorem ownership_mismatch_indistinguishable_from_absence
    (db : DB) (uid pid aid sid newId : String)
    (pd : ProjectsService.ProjectUpdate) (sd : MCPServersService.ServerUpdate)
    (st : MCPStatus) (err : Option String) (now : Nat)
    (hp : ∀ p ∈ db.projects, p.id = pid → p.userId ≠ uid)
    (hs : ∀ s ∈ db.mcpServers, s.id = sid → s.userId ≠ uid) :
    ProjectsService.getProject uid pid db = none
    ∧ ProjectsService.updateProject uid pid pd now db = (none, db)
    ∧ ProjectsService.deleteProject uid pid db = (false, db)
    ∧ ProjectsService.getProjectApps uid pid db = []
    ∧ ProjectsService.addAppToProject uid pid aid newId now db = (false, db)
    ∧ ProjectsService.removeAppFromProject uid pid aid db = (false, db)
    ∧ MCPServersService.getServer uid sid db = none
    ∧ MCPServersService.updateServer uid sid sd now db = (none, db)
    ∧ MCPServersService.deleteServer uid sid db = (false, db)
    ∧ MCPServersService.toggleServer uid sid now db = (none, db)
    ∧ MCPServersService.updateServerStatus uid sid st err now db = (none, db) := by
  have hfp : db.projects.find? (ownedProject uid pid) = none := by
    refine List.find?_eq_none.mpr ?_
    intro p hpmem
    simp only [ownedProject, Bool.and_eq_true, beq_iff_eq, not_and]
    exact hp p hpmem
  have hfs : db.mcpServers.find? (ownedServer uid sid) = none := by
    refine List.find?_eq_none.mpr ?_
    intro s hsmem
    simp only [ownedServer, Bool.and_eq_true, beq_iff_eq, not_and]
    exact hs s hsmem
  refine ⟨?_, ?_, ?_, ?_, ?_, ?_, ?_, ?_, ?_, ?_, ?_⟩
  · simp [ProjectsService.getProject, hfp]
  · simp [ProjectsService.updateProject, hfp]
  · simp [ProjectsService.deleteProject, hfp]
  · simp [ProjectsService.getProjectApps, hfp]
  · simp [ProjectsService.addAppToProject, hfp]
  · simp [ProjectsService.removeAppFromProject, hfp]
  · simp [MCPServersService.getServer, hfs]
  · simp [MCPServersService.updateServer, hfs]
  · simp [MCPServersService.deleteServer, hfs]
  · simp [MCPServersService.toggleServer, hfs]
  · simp [MCPServersService.updateServerStatus, hfs]

/-- C1 witness: user `u2` probing resources `p1`, `s1` owned by `u1` in the
sample store gets the not-found outcome from all eleven operations and the
store is unchanged. -/
theorem ownership_mismatch_witness :
    (∀ p ∈ sampleDB.projects, p.id = "p1" → p.userId ≠ "u2")
    ∧ (∀ s ∈ sampleDB.mcpServers, s.id = "s1" → s.userId ≠ "u2")
    ∧ (ProjectsService.getProject "u2" "p1" sampleDB = none
       ∧ ProjectsService.updateProject "u2" "p1" {} 5 sampleDB = (none, sampleDB)
       ∧ ProjectsService.deleteProject "u2" "p1" sampleDB = (false, sampleDB)
       ∧ ProjectsService.getProjectApps "u2" "p1" sampleDB = []
       ∧ ProjectsService.addAppToProject "u2" "p1" "a1" "l9" 5 sampleDB = (false, sampleDB)
       ∧ ProjectsService.removeAppFromProject "u2" "p1" "a1" sampleDB = (false, sampleDB)
       ∧ MCPServersService.getServer "u2" "s1" sampleDB = none
       ∧ MCPServersService.updateServer "u2" "s1" {} 5 sampleDB = (none, sampleDB)
       ∧ MCPServersService.deleteServer "u2" "s1" sampleDB = (false, sampleDB)
       ∧ MCPServersService.toggleServer "u2" "s1" 5 sampleDB = (none, sampleDB)
       ∧ MCPServersService.updateServerStatus "u2" "s1" .connected none 5 sampleDB
          = (none, sampleDB)) :=
  ⟨by decide, by decide,
   ownership_mismatch_indistinguishable_from_absence sampleDB "u2" "p1" "a1" "s1" "l9"
     {} {} .connected none 5 (by decide) (by decide)⟩

/-! ## C2: connection-test outcome classification -/

/-- C2. Classification of the connection test: a received response with a 2xx
status yields `connected` with the elapsed milliseconds in the message; a
received response with a non-2xx status yields `error` with the status code in
the message; a failed request yields `disconnected` with the failure
description as the message; the success flag is true iff the status is
`connected`; the measured latency is returned in every case; and
`testConnection` returns exactly this classification of the probe of the
resolved URL. -/
theorem testConnection_outcome_classification (outcome : ProbeOutcome) (elapsedMs : Nat) :
    (∀ code, outcome = .response code → responseOk code = true →
      classifyProbe outcome elapsedMs =
        { success := true, status := .connected
          message := "Connected successfully (" ++ toString elapsedMs ++ "ms)"
          latencyMs := elapsedMs })
    ∧ (∀ code, outcome = .response code → responseOk code = false →
      classifyProbe outcome elapsedMs =
        { success := false, status := .error
          message := "Server returned status " ++ toString code
          latencyMs := elapsedMs })
    ∧ (∀ description, outcome = .failure description →
      classifyProbe outcome elapsedMs =
        { success := false, status := .disconnected
          message := description, latencyMs := elapsedMs })
    ∧ ((classifyProbe outcome elapsedMs).success = true
        ↔ (classifyProbe outcome elapsedMs).status = .connected)
    ∧ (classifyProbe outcome elapsedMs).latencyMs = elapsedMs
    ∧ (∀ (db : DB) (uid sid : String) (probe : String → ProbeOutcome)
        (now : Nat) (s : MCPServer),
        MCPServersService.getServer uid sid db = some s →
        probe (resolveProbeUrl s.url) = outcome →
        (MCPServersController.testConnection uid sid probe elapsedMs now db).1
          = some (classifyProbe outcome elapsedMs)) := by
  refine ⟨?_, ?_, ?_, ?_, ?_, ?_⟩
  · intro code heq hok
    subst heq
    simp [classifyProbe, hok]
    decide
  · intro code heq hok
    subst heq
    simp [classifyProbe, hok]
    decide
  · intro description heq
    subst heq
    simp [classifyProbe]
    decide
  · cases outcome with
    | response code =>
      by_cases hok : responseOk code
      · simp [classifyProbe, hok]
        decide
      · simp [classifyProbe, hok]
        decide
    | failure description =>
      simp [classifyProbe]
      decide
  · cases outcome with
    | response code =>
      by_cases hok : responseOk code
      · simp [classifyProbe, hok]
      · simp [classifyProbe, hok]
    | failure description => simp [classifyProbe]
  · intro db uid sid probe now s hfind hprobe
    simp [MCPServersController.testConnection, hfind, hprobe]

/-- C2 witness: a 200 response after 42ms classifies as a successful
`connected` result carrying the latency in its message. -/
theorem testConnection_outcome_witness :
    responseOk 200 = true
    ∧ classifyProbe (.response 200) 42 =
        { success := true, status := .connected
          message := "Connected successfully (42ms)", latencyMs := 42 } :=
  ⟨by decide,
   (testConnection_outcome_classification (.response 200) 42).1 200 rfl (by decide)⟩

/-! ## C3: probe URL resolution -/

/-- C3. The probe URL is a pure function of the configured url: when the url
already ends with `/health` it is used unchanged; otherwise `/health` is
appended to the url with a trailing slash (its final character) stripped when
one is present. -/
theorem resolveProbeUrl_cases (url : String) :
    (jsEndsWith url "/health" = true → resolveProbeUrl url = url)
    ∧ (jsEndsWith url "/health" = false → jsEndsWith url "/" = true →
        resolveProbeUrl url = String.mk url.data.dropLast ++ "/health")
    ∧ (jsEndsWith url "/health" = false → jsEndsWith url "/" = false →
        resolveProbeUrl url = url ++ "/health") := by
  refine ⟨?_, ?_, ?_⟩
  · intro h
    simp [resolveProbeUrl, h]
  · intro h hslash
    simp [resolveProbeUrl, stripTrailingSlash, h, hslash]
  · intro h hslash
    simp [resolveProbeUrl, stripTrailingSlash, h, hslash]

/-- C3 witness: the three cases at concrete urls. -/
theorem resolveProbeUrl_witness :
    (jsEndsWith "http://a/health" "/health" = true
      ∧ resolveProbeUrl "http://a/health" = "http://a/health")
    ∧ (jsEndsWith "http://a/" "/health" = false ∧ jsEndsWith "http://a/" "/" = true
      ∧ resolveProbeUrl "http://a/" = String.mk "http://a/".data.dropLast ++ "/health")
    ∧ (jsEndsWith "http://a" "/health" = false ∧ jsEndsWith "http://a" "/" = false
      ∧ resolveProbeUrl "http://a" = "http://a" ++ "/health") :=
  ⟨⟨by decide, (resolveProbeUrl_cases "http://a/health").1 (by decide)⟩,
   ⟨by decide, by decide, (resolveProbeUrl_cases "http://a/").2.1 (by decide) (by decide)⟩,
   ⟨by decide, by decide, (resolveProbeUrl_cases "http://a").2.2 (by decide) (by decide)⟩⟩

/-! ## C8: document truncation -/

/-- C8 counterexample. With budget 5 and extracted text "abcdefgh", the
stored textContent is not the first 5 characters of the extracted text: the
code appends a truncation marker, so the stored content even exceeds the
character budget. -/
theorem processDocumentFile_clip_counterexample :
    ¬((processDocumentFile 5 "d1" "a.txt" "text/plain" ".txt" 8 "abcdefgh").textContent
        = jsTake "abcdefgh" 5)
    ∧ (processDocumentFile 5 "d1" "a.txt" "text/plain" ".txt" 8 "abcdefgh").textContent.length > 5 := by
  constructor
  · decide
  · decide

/-- C8 (amended). When the extracted text is longer than `maxChars`, the
stored textContent is the first `maxChars` characters of the extracted text
followed by the truncation marker `"\n\n... [Content truncated]"` (so it may
exceed the budget by the marker length) and the attachment has
truncated = true; when the extracted text is at or under the budget, the
textContent equals the extracted text unmodified and truncated = false. -/
theorem processDocumentFile_truncation
    (maxChars : Nat) (id filename mimeType extension : String)
    (size : Nat) (text : String) :
    (text.length > maxChars →
      (processDocumentFile maxChars id filename mimeType extension size text).textContent
          = jsTake text maxChars ++ truncationMarker
        ∧ (processDocumentFile maxChars id filename mimeType extension size text).truncated = true)
    ∧ (text.length ≤ maxChars →
      (processDocumentFile maxChars id filename mimeType extension size text).textContent = text
        ∧ (processDocumentFile maxChars id filename mimeType extension size text).truncated = false) := by
  constructor
  · intro h
    simp [processDocumentFile, truncateContent, h]
  · intro h
    have h' : ¬(text.length > maxChars) := Nat.not_lt.mpr h
    simp [processDocumentFile, truncateContent, h']

/-- C8 witness: both branches at concrete inputs. -/
theorem processDocumentFile_truncation_witness :
    ("abcdefgh".length > 5
      ∧ ((processDocumentFile 5 "d1" "a.txt" "text/plain" ".txt" 8 "abcdefgh").textContent
            = jsTake "abcdefgh" 5 ++ truncationMarker
         ∧ (processDocumentFile 5 "d1" "a.txt" "text/plain" ".txt" 8 "abcdefgh").truncated = true))
    ∧ ("hi".length ≤ 5
      ∧ ((processDocumentFile 5 "d2" "b.txt" "text/plain" ".txt" 2 "hi").textContent = "hi"
         ∧ (processDocumentFile 5 "d2" "b.txt" "text/plain" ".txt" 2 "hi").truncated = false)) :=
  ⟨⟨by decide,
    (processDocumentFile_truncation 5 "d1" "a.txt" "text/plain" ".txt" 8 "abcdefgh").1 (by decide)⟩,
   ⟨by decide,
    (processDocumentFile_truncation 5 "d2" "b.txt" "text/plain" ".txt" 2 "hi").2 (by decide)⟩⟩

/-! ## C10: document-count bound is an invariant -/

/-- C10. The documents list never grows past `maxDocuments`: `addDocuments`
rejects an entire batch (adding none of its files) whenever the current count
plus the batch size would exceed the limit, and otherwise appends at most the
batch size, so a list within the bound stays within it; `removeDocument` and
`clearDocuments` only shrink the list. -/
theorem useDocumentUpload_maxDocuments_invariant
    {F : Type} (maxDocuments : Nat) (documents : List DocumentAttachment)
    (files : List F) (process : F → Option DocumentAttachment) (id : String) :
    (documents.length ≤ maxDocuments →
      (useDocumentUpload.addDocuments maxDocuments documents files process).length
        ≤ maxDocuments)
    ∧ (documents.length + files.length > maxDocuments →
      useDocumentUpload.addDocuments maxDocuments documents files process = documents)
    ∧ (useDocumentUpload.removeDocument id documents).length ≤ documents.length
    ∧ useDocumentUpload.clearDocuments = ([] : List DocumentAttachment) := by
  refine ⟨?_, ?_, ?_, rfl⟩
  · intro h
    unfold useDocumentUpload.addDocuments
    by_cases hc : documents.length + files.length > maxDocuments
    · rw [if_pos hc]
      exact h
    · rw [if_neg hc, List.length_append]
      have hlen : (files.filterMap process).length ≤ files.length :=
        List.length_filterMap_le _ _
      omega
  · intro h
    unfold useDocumentUpload.addDocuments
    rw [if_pos h]
  · exact List.length_filter_le _ _

/-- C10 witness: at the default limit `MAX_DOCUMENTS_PER_MESSAGE`, a batch of
four files on a one-element list is rejected wholesale. -/
theorem useDocumentUpload_maxDocuments_witness :
    ([sampleDoc].length ≤ MAX_DOCUMENTS_PER_MESSAGE
      ∧ (useDocumentUpload.addDocuments MAX_DOCUMENTS_PER_MESSAGE [sampleDoc]
          [0, 1, 2, 3] (fun _ => (none : Option DocumentAttachment))).length
            ≤ MAX_DOCUMENTS_PER_MESSAGE)
    ∧ ([sampleDoc].length + [0, 1, 2, 3].length > MAX_DOCUMENTS_PER_MESSAGE
      ∧ useDocumentUpload.addDocuments MAX_DOCUMENTS_PER_MESSAGE [sampleDoc]
          [0, 1, 2, 3] (fun _ => (none : Option DocumentAttachment)) = [sampleDoc])
    ∧ (useDocumentUpload.removeDocument "d1" [sampleDoc]).length ≤ [sampleDoc].length
    ∧ useDocumentUpload.clearDocuments = ([] : List DocumentAttachment) :=
  ⟨⟨by decide,
    (useDocumentUpload_maxDocuments_invariant MAX_DOCUMENTS_PER_MESSAGE [sampleDoc]
      ([0, 1, 2, 3] : List Nat) (fun _ => none) "d1").1 (by decide)⟩,
   ⟨by decide,
    (useDocumentUpload_maxDocuments_invariant MAX_DOCUMENTS_PER_MESSAGE [sampleDoc]
      ([0, 1, 2, 3] : List Nat) (fun _ => none) "d1").2.1 (by decide)⟩,
   (useDocumentUpload_maxDocuments_invariant MAX_DOCUMENTS_PER_MESSAGE [sampleDoc]
      ([0, 1, 2, 3] : List Nat) (fun _ => none) "d1").2.2.1,
   (useDocumentUpload_maxDocuments_invariant MAX_DOCUMENTS_PER_MESSAGE [sampleDoc]
      ([0, 1, 2, 3] : List Nat) (fun _ => none) "d1").2.2.2⟩

/-! ## C5: partial updates touch only supplied fields -/

/-- First-match by id together with ownership of the found row gives the
ownership-scoped first match, for MCP servers. -/
theorem find?_ownedServer_of_id {db : DB} {uid sid : String} {s : MCPServer}
    (h1 : db.mcpServers.find? (fun x => x.id == sid) = some s)
    (h2 : s.userId = uid) :
    db.mcpServers.find? (ownedServer uid sid) = some s :=
  find?_and_of_find? (fun (x : MCPServer) => x.id == sid)
    (fun (x : MCPServer) => x.userId == uid) h1 (by simp [h2])

/-- First-match by id together with ownership of the found row gives the
ownership-scoped first match, for projects. -/
theorem find?_ownedProject_of_id {db : DB} {uid pid : String} {p : Project}
    (h1 : db.projects.find? (fun x => x.id == pid) = some p)
    (h2 : p.userId = uid) :
    db.projects.find? (ownedProject uid pid) = some p :=
  find?_and_of_find? (fun (x : Project) => x.id == pid)
    (fun (x : Project) => x.userId == uid) h1 (by simp [h2])

/-- Returned row of `updateServer` on an owned server: the stored row with the
set-clause applied. -/
theorem updateServer_returns {db : DB} {uid sid : String} {s : MCPServer}
    (data : MCPServersService.ServerUpdate) (now : Nat)
    (h1 : db.mcpServers.find? (fun x => x.id == sid) = some s)
    (h2 : s.userId = uid) :
    (MCPServersService.updateServer uid sid data now db).1
      = some (MCPServersService.applyServerUpdate data now s) := by
  have hown := find?_ownedServer_of_id h1 h2
  simp only [MCPServersService.updateServer, hown]
  exact find?_map_update (fun x => x.id == sid)
    (MCPServersService.applyServerUpdate data now) (fun x => rfl) h1

/-- Returned row of `updateProject` on an owned project: the stored row with
the set-clause applied. -/
theorem updateProject_returns {db : DB} {uid pid : String} {p : Project}
    (data : ProjectsService.ProjectUpdate) (now : Nat)
    (h1 : db.projects.find? (fun x => x.id == pid) = some p)
    (h2 : p.userId = uid) :
    (ProjectsService.updateProject uid pid data now db).1
      = some (ProjectsService.applyProjectUpdate data now p) := by
  have hown := find?_ownedProject_of_id h1 h2
  simp only [ProjectsService.updateProject, hown]
  exact find?_map_update (fun x => x.id == pid)
    (ProjectsService.applyProjectUpdate data now) (fun x => rfl) h1

/-- C5. `updateServer` on an owned server returns a row in which only the
payload-supplied fields changed (name, url, transport, authType,
authSecretId, description, enabled), `updatedAt` is refreshed to the call
time, and status, lastChecked and lastError are exactly those of the stored
row; `updateProject` with only a status supplied leaves name and description
unchanged and refreshes `updatedAt`. -/
theorem update_partial_frame (db : DB) (uid sid pid : String)
    (data : MCPServersService.ServerUpdate) (st : ProjectStatus) (now : Nat)
    (s : MCPServer) (p : Project)
    (hs1 : db.mcpServers.find? (fun x => x.id == sid) = some s)
    (hs2 : s.userId = uid)
    (hp1 : db.projects.find? (fun x => x.id == pid) = some p)
    (hp2 : p.userId = uid) :
    ((MCPServersService.updateServer uid sid data now db).1
        = some (MCPServersService.applyServerUpdate data now s)
      ∧ (∀ u, (MCPServersService.updateServer uid sid data now db).1 = some u →
          u.status = s.status
          ∧ u.lastChecked = s.lastChecked
          ∧ u.lastError = s.lastError
          ∧ u.updatedAt = now
          ∧ (data.name = none → u.name = s.name)
          ∧ (∀ v, data.name = some v → u.name = v)
          ∧ (data.url = none → u.url = s.url)
          ∧ (∀ v, data.url = some v → u.url = v)
          ∧ (data.transport = none → u.transport = s.transport)
          ∧ (∀ v, data.transport = some v → u.transport = v)
          ∧ (data.authType = none → u.authType = s.authType)
          ∧ (∀ v, data.authType = some v → u.authType = v)
          ∧ (data.authSecretId = none → u.authSecretId = s.authSecretId)
          ∧ (∀ v, data.authSecretId = some v → u.authSecretId = v)
          ∧ (data.description = none → u.description = s.description)
          ∧ (∀ v, data.description = some v → u.description = v)
          ∧ (data.enabled = none → u.enabled = s.enabled)
          ∧ (∀ v, data.enabled = some v → u.enabled = v)))
    ∧ (∀ r, (ProjectsService.updateProject uid pid
          ({ status := some st } : ProjectsService.ProjectUpdate) now db).1 = some r →
        r.name = p.name ∧ r.description = p.description
          ∧ r.status = st ∧ r.updatedAt = now) := by
  have h1 := updateServer_returns data now hs1 hs2
  have h2 := updateProject_returns ({ status := some st } : ProjectsService.ProjectUpdate) now hp1 hp2
  refine ⟨⟨h1, ?_⟩, ?_⟩
  · intro u hu
    rw [h1] at hu
    cases hu
    refine ⟨rfl, rfl, rfl, rfl, ?_, ?_, ?_, ?_, ?_, ?_, ?_, ?_, ?_, ?_, ?_, ?_, ?_, ?_⟩
    · intro h
      simp [MCPServersService.applyServerUpdate, h]
    · intro v h
      simp [MCPServersService.applyServerUpdate, h]
    · intro h
      simp [MCPServersService.applyServerUpdate, h]
    · intro v h
      simp [MCPServersService.applyServerUpdate, h]
    · intro h
      simp [MCPServersService.applyServerUpdate, h]
    · intro v h
      simp [MCPServersService.applyServerUpdate, h]
    · intro h
      simp [MCPServersService.applyServerUpdate, h]
    · intro v h
      simp [MCPServersService.applyServerUpdate, h]
    · intro h
      simp [MCPServersService.applyServerUpdate, h]
    · intro v h
      simp [MCPServersService.applyServerUpdate, h]
    · intro h
      simp [MCPServersService.applyServerUpdate, h]
    · intro v h
      simp [MCPServersService.applyServerUpdate, h]
    · intro h
      simp [MCPServersService.applyServerUpdate, h]
    · intro v h
      simp [MCPServersService.applyServerUpdate, h]
  · intro r hr
    rw [h2] at hr
    cases hr
    exact ⟨rfl, rfl, rfl, rfl⟩

/-- C5 witness: on the sample store, updating the owned server `s1` with only
a new name keeps status, lastChecked, lastError and the unsupplied fields, and
updating the owned project `p1` with only a status keeps name and
description. -/
theorem update_partial_frame_witness :
    (sampleDB.mcpServers.find? (fun x => x.id == "s1") = some sampleServer)
    ∧ sampleServer.userId = "u1"
    ∧ (sampleDB.projects.find? (fun x => x.id == "p1") = some sampleProject)
    ∧ sampleProject.userId = "u1"
    ∧ (∀ u, (MCPServersService.updateServer "u1" "s1"
          ({ name := some "renamed" } : MCPServersService.ServerUpdate) 7 sampleDB).1 = some u →
        u.status = sampleServer.status
        ∧ u.lastChecked = sampleServer.lastChecked
        ∧ u.lastError = sampleServer.lastError
        ∧ u.updatedAt = 7)
    ∧ (∀ r, (ProjectsService.updateProject "u1" "p1"
          ({ status := some .archived } : ProjectsService.ProjectUpdate) 7 sampleDB).1 = some r →
        r.name = sampleProject.name ∧ r.description = sampleProject.description
          ∧ r.status = .archived ∧ r.updatedAt = 7) := by
  have h := update_partial_frame sampleDB "u1" "s1" "p1"
    ({ name := some "renamed" } : MCPServersService.ServerUpdate) .archived 7
    sampleServer sampleProject (by decide) (by decide) (by decide) (by decide)
  refine ⟨by decide, by decide, by decide, by decide, ?_, h.2⟩
  intro u hu
  have hu' := h.1.2 u hu
  exact ⟨hu'.1, hu'.2.1, hu'.2.2.1, hu'.2.2.2.1⟩

/-! ## C6: toggleServer flips `enabled` -/

/-- One call of `toggleServer` on an owned server, in closed form. -/
theorem toggleServer_step (db : DB) (uid sid : String) (now : Nat)
    (s : MCPServer)
    (h1 : db.mcpServers.find? (fun x => x.id == sid) = some s)
    (h2 : s.userId = uid) :
    MCPServersService.toggleServer uid sid now db
      = (some { s with enabled := !s.enabled, updatedAt := now },
         { db with
            mcpServers := db.mcpServers.map
                (fun x => if x.id == sid then
                    { x with enabled := !s.enabled, updatedAt := now }
                  else x) }) := by
  have hown := find?_ownedServer_of_id h1 h2
  simp only [MCPServersService.toggleServer, hown]
  exact Prod.ext_iff.mpr
    ⟨find?_map_update (fun (x : MCPServer) => x.id == sid)
      (fun x => { x with enabled := !s.enabled, updatedAt := now }) (fun x => rfl) h1,
     rfl⟩

/-- C6. On an owned server, `toggleServer` returns the stored row with
`enabled` replaced by its logical negation (so never unchanged) and
`updatedAt` refreshed; running `toggleServer` again on the resulting store
restores the original `enabled` value. -/
theorem toggleServer_negates (db : DB) (uid sid : String) (now now2 : Nat)
    (s : MCPServer)
    (h1 : db.mcpServers.find? (fun x => x.id == sid) = some s)
    (h2 : s.userId = uid) :
    (MCPServersService.toggleServer uid sid now db).1
        = some { s with enabled := !s.enabled, updatedAt := now }
    ∧ ¬(!s.enabled = s.enabled)
    ∧ (MCPServersService.toggleServer uid sid now2
          (MCPServersService.toggleServer uid sid now db).2).1
        = some { s with enabled := s.enabled, updatedAt := now2 } := by
  have hfirst := toggleServer_step db uid sid now s h1 h2
  have h1' : ({ db with
        mcpServers := db.mcpServers.map
            (fun x => if x.id == sid then
                { x with enabled := !s.enabled, updatedAt := now }
              else x) } : DB).mcpServers.find? (fun x => x.id == sid)
      = some ({ s with enabled := !s.enabled, updatedAt := now }) :=
    find?_map_update (fun (x : MCPServer) => x.id == sid)
      (fun x => { x with enabled := !s.enabled, updatedAt := now }) (fun x => rfl) h1
  have hsecond := toggleServer_step
    ({ db with
        mcpServers := db.mcpServers.map
            (fun x => if x.id == sid then
                { x with enabled := !s.enabled, updatedAt := now }
              else x) } : DB) uid sid now2
    ({ s with enabled := !s.enabled, updatedAt := now }) h1' h2
  refine ⟨by rw [hfirst], by simp, ?_⟩
  rw [hfirst]
  simp only [hsecond, Bool.not_not]

/-- C6 witness: toggling the sample server disables it; toggling again
restores `enabled = true`. -/
theorem toggleServer_negates_witness :
    (sampleDB.mcpServers.find? (fun x => x.id == "s1") = some sampleServer)
    ∧ sampleServer.userId = "u1"
    ∧ ((MCPServersService.toggleServer "u1" "s1" 7 sampleDB).1
        = some { sampleServer with enabled := !sampleServer.enabled, updatedAt := 7 }
      ∧ ¬(!sampleServer.enabled = sampleServer.enabled)
      ∧ (MCPServersService.toggleServer "u1" "s1" 8
            (MCPServersService.toggleServer "u1" "s1" 7 sampleDB).2).1
          = some { sampleServer with enabled := sampleServer.enabled, updatedAt := 8 }) :=
  ⟨by decide, by decide,
   toggleServer_negates sampleDB "u1" "s1" 7 8 sampleServer (by decide) (by decide)⟩

/-! ## C7: getProjectApps returns empty on unauthorized, the join on owned -/

/-- C7. `getProjectApps` returns the empty list — not an error — whenever no
stored project row with the given id is owned by the caller; when the
ownership-scoped lookup succeeds it returns exactly the `apps` rows reachable
through the project's `project_apps` link rows: every returned app is a
stored app linked to the project, and every app found through a link of the
project is returned. -/
theorem getProjectApps_empty_or_join (db : DB) (uid pid : String) :
    ((∀ p ∈ db.projects, p.id = pid → p.userId ≠ uid) →
      ProjectsService.getProjectApps uid pid db = [])
    ∧ (∀ proj, db.projects.find? (ownedProject uid pid) = some proj →
        (∀ a ∈ ProjectsService.getProjectApps uid pid db,
          a ∈ db.apps ∧ ∃ pa ∈ db.projectApps, pa.projectId = pid ∧ a.id = pa.appId)
        ∧ (∀ pa a, pa ∈ db.projectApps → pa.projectId = pid →
            db.apps.find? (fun x => x.id == pa.appId) = some a →
            a ∈ ProjectsService.getProjectApps uid pid db)) := by
  constructor
  · intro hp
    have hfp : db.projects.find? (ownedProject uid pid) = none := by
      refine List.find?_eq_none.mpr ?_
      intro p hpmem
      simp only [ownedProject, Bool.and_eq_true, beq_iff_eq, not_and]
      exact hp p hpmem
    simp [ProjectsService.getProjectApps, hfp]
  · intro proj hproj
    constructor
    · intro a ha
      simp only [ProjectsService.getProjectApps, hproj] at ha
      obtain ⟨pa, hpa, hfind⟩ := List.mem_filterMap.mp ha
      obtain ⟨hpamem, hpid⟩ := List.mem_filter.mp hpa
      refine ⟨List.mem_of_find?_eq_some hfind, pa, hpamem, ?_, ?_⟩
      · exact beq_iff_eq.mp hpid
      · simpa using List.find?_some hfind
    · intro pa a hmem hpid hfind
      simp only [ProjectsService.getProjectApps, hproj]
      exact List.mem_filterMap.mpr
        ⟨pa, List.mem_filter.mpr ⟨hmem, by simp [hpid]⟩, hfind⟩

/-- C7 witness: the unauthorized user `u2` gets `[]` from the sample store;
the owner `u1` gets the linked app `a1`. -/
theorem getProjectApps_witness :
    ((∀ p ∈ sampleDB.projects, p.id = "p1" → p.userId ≠ "u2")
      ∧ ProjectsService.getProjectApps "u2" "p1" sampleDB = [])
    ∧ (sampleDB.projects.find? (ownedProject "u1" "p1") = some sampleProject
      ∧ sampleApp ∈ ProjectsService.getProjectApps "u1" "p1" sampleDB) :=
  ⟨⟨by decide, (getProjectApps_empty_or_join sampleDB "u2" "p1").1 (by decide)⟩,
   ⟨by decide,
    ((getProjectApps_empty_or_join sampleDB "u1" "p1").2 sampleProject (by decide)).2
      sampleLink sampleApp (by decide) (by decide) (by decide)⟩⟩

/-! ## C9: create endpoints trim inputs and reject blank required fields -/

/-- C9. `createProject` rejects a missing or whitespace-only name with a 400
error envelope and an unchanged store; otherwise it persists the project with
name and description trimmed. `createServer` does the same for name and url
(each rejected with 400 when missing or whitespace-only) and persists name,
url and description trimmed. -/
theorem create_trims_and_validates (db : DB) (uid newId : String) (now : Nat)
    (pbody : ProjectsController.CreateProjectBody)
    (sbody : MCPServersController.CreateServerBody) :
    (pbody.name = none →
      ProjectsController.createProject uid pbody newId now db
        = (.err "Project name is required" 400, db))
    ∧ (∀ n, pbody.name = some n → jsTrim n = "" →
      ProjectsController.createProject uid pbody newId now db
        = (.err "Project name is required" 400, db))
    ∧ (∀ n, pbody.name = some n → jsTrim n ≠ "" →
        (∀ p ∈ db.projects, p.id ≠ newId) →
      ∃ p', ProjectsController.createProject uid pbody newId now db
          = (.ok p', { db with projects := db.projects ++ [p'] })
        ∧ p'.name = jsTrim n ∧ p'.description = pbody.description.map jsTrim
        ∧ p'.userId = uid ∧ p'.status = .draft)
    ∧ (sbody.name = none →
      MCPServersController.createServer uid sbody newId now db
        = (.err "Server name is required" 400, db))
    ∧ (∀ n, sbody.name = some n → jsTrim n = "" →
      MCPServersController.createServer uid sbody newId now db
        = (.err "Server name is required" 400, db))
    ∧ (∀ n, sbody.name = some n → jsTrim n ≠ "" → sbody.url = none →
      MCPServersController.createServer uid sbody newId now db
        = (.err "Server URL is required" 400, db))
    ∧ (∀ n u, sbody.name = some n → jsTrim n ≠ "" → sbody.url = some u →
        jsTrim u = "" →
      MCPServersController.createServer uid sbody newId now db
        = (.err "Server URL is required" 400, db))
    ∧ (∀ n u, sbody.name = some n → jsTrim n ≠ "" → sbody.url = some u →
        jsTrim u ≠ "" → (∀ s ∈ db.mcpServers, s.id ≠ newId) →
      ∃ s', MCPServersController.createServer uid sbody newId now db
          = (.ok s', { db with mcpServers := db.mcpServers ++ [s'] })
        ∧ s'.name = jsTrim n ∧ s'.url = jsTrim u
        ∧ s'.description = sbody.description.map jsTrim
        ∧ s'.userId = uid) := by
  refine ⟨?_, ?_, ?_, ?_, ?_, ?_, ?_, ?_⟩
  · intro hn
    simp [ProjectsController.createProject, hn]
  · intro n hn htrim
    simp [ProjectsController.createProject, hn, htrim]
  · intro n hn htrim hfresh
    have hbeq : (jsTrim n == "") = false := by
      simpa using htrim
    have hleft : db.projects.find? (fun p => p.id == newId) = none := by
      refine List.find?_eq_none.mpr ?_
      intro p hpmem
      simpa using hfresh p hpmem
    refine ⟨{ id := newId, userId := uid, name := jsTrim n
              description := pbody.description.map jsTrim
              status := .draft, createdAt := now, updatedAt := now },
            ?_, rfl, rfl, rfl, rfl⟩
    simp [ProjectsController.createProject, hn, hbeq,
      ProjectsService.createProject, List.find?_append, hleft, List.find?]
  · intro hn
    simp [MCPServersController.createServer, hn]
  · intro n hn htrim
    simp [MCPServersController.createServer, hn, htrim]
  · intro n hn htrim hu
    have hbeq : (jsTrim n == "") = false := by
      simpa using htrim
    simp [MCPServersController.createServer, hn, hbeq, hu]
  · intro n u hn htrim hu hutrim
    have hbeq : (jsTrim n == "") = false := by
      simpa using htrim
    simp [MCPServersController.createServer, hn, hbeq, hu, hutrim]
  · intro n u hn htrim hu hutrim hfresh
    have hbeqn : (jsTrim n == "") = false := by
      simpa using htrim
    have hbequ : (jsTrim u == "") = false := by
      simpa using hutrim
    have hleft : db.mcpServers.find? (fun s => s.id == newId) = none := by
      refine List.find?_eq_none.mpr ?_
      intro s hsmem
      simpa using hfresh s hsmem
    refine ⟨{ id := newId, userId := uid, name := jsTrim n, url := jsTrim u
              transport := sbody.transport.getD .http
              authType := sbody.authType.getD .none
              authSecretId := (sbody.authSecretId.map some).getD none
              description := (sbody.description.map (fun d => some (jsTrim d))).getD none
              enabled := sbody.enabled.getD true
              status := .unknown, lastChecked := none, lastError := none
              createdAt := now, updatedAt := now },
            ?_, rfl, rfl, ?_, rfl⟩
    · simp [MCPServersController.createServer, hn, hbeqn, hu, hbequ,
        MCPServersService.createServer, List.find?_append, hleft, List.find?]
    · cases sbody.description <;> rfl

/-- C9 witness: blank-name rejection and trimmed persistence at concrete
bodies on the sample store. -/
theorem create_trims_witness :
    (({ name := some "   " } : ProjectsController.CreateProjectBody).name = some "   "
      ∧ jsTrim "   " = ""
      ∧ ProjectsController.createProject "u1"
          ({ name := some "   " } : ProjectsController.CreateProjectBody) "p9" 9 sampleDB
          = (.err "Project name is required" 400, sampleDB))
    ∧ (jsTrim " New Project " ≠ "" ∧ (∀ p ∈ sampleDB.projects, p.id ≠ "p9")
      ∧ ∃ p', ProjectsController.createProject "u1"
            ({ name := some " New Project ", description := some " desc " } :
              ProjectsController.CreateProjectBody) "p9" 9 sampleDB
          = (.ok p', { sampleDB with projects := sampleDB.projects ++ [p'] })
        ∧ p'.name = jsTrim " New Project "
        ∧ p'.description = (some " desc " : Option String).map jsTrim
        ∧ p'.userId = "u1" ∧ p'.status = .draft)
    ∧ (∃ s', MCPServersController.createServer "u1"
            ({ name := some " srv ", url := some " http://a " } :
              MCPServersController.CreateServerBody) "s9" 9 sampleDB
          = (.ok s', { sampleDB with mcpServers := sampleDB.mcpServers ++ [s'] })
        ∧ s'.name = jsTrim " srv " ∧ s'.url = jsTrim " http://a "
        ∧ s'.description = (none : Option String).map jsTrim
        ∧ s'.userId = "u1") :=
  ⟨⟨rfl, by decide,
    (create_trims_and_validates sampleDB "u1" "p9" 9
        ({ name := some "   " } : ProjectsController.CreateProjectBody)
        ({} : MCPServersController.CreateServerBody)).2.1 "   " rfl (by decide)⟩,
   ⟨by decide, by decide,
    (create_trims_and_validates sampleDB "u1" "p9" 9
        ({ name := some " New Project ", description := some " desc " } :
          ProjectsController.CreateProjectBody)
        ({} : MCPServersController.CreateServerBody)).2.2.1 " New Project " rfl
      (by decide) (by decide)⟩,
   (create_trims_and_validates sampleDB "u1" "s9" 9
        ({} : ProjectsController.CreateProjectBody)
        ({ name := some " srv ", url := some " http://a " } :
          MCPServersController.CreateServerBody)).2.2.2.2.2.2.2 " srv " " http://a "
      rfl (by decide) rfl (by decide) (by decide)⟩

/-! ## C4: addAppToProject is idempotent -/

/-- `addAppToProject` never changes the `projects` and `apps` tables. -/
theorem addAppToProject_tables (uid pid aid i : String) (t : Nat) (db : DB) :
    ((ProjectsService.addAppToProject uid pid aid i t db).2).projects = db.projects
    ∧ ((ProjectsService.addAppToProject uid pid aid i t db).2).apps = db.apps := by
  unfold ProjectsService.addAppToProject
  refine ⟨?_, ?_⟩ <;> (repeat' split) <;> rfl

/-- A zero link count means the duplicate check finds nothing. -/
theorem find?_link_none_of_count_zero {db : DB} {pid aid : String}
    (h : linkCount db pid aid = 0) :
    db.projectApps.find? (linkRow pid aid) = none := by
  have hfil : db.projectApps.filter (linkRow pid aid) = [] :=
    List.length_eq_zero.mp h
  refine List.find?_eq_none.mpr ?_
  intro x hx hpx
  have hmem : x ∈ db.projectApps.filter (linkRow pid aid) :=
    List.mem_filter.mpr ⟨hx, hpx⟩
  simp [hfil] at hmem

/-- A positive link count means the duplicate check finds a row. -/
theorem find?_link_isSome_of_count_pos {db : DB} {pid aid : String}
    (h : 0 < linkCount db pid aid) :
    (db.projectApps.find? (linkRow pid aid)).isSome = true := by
  obtain ⟨x, hx⟩ := List.exists_mem_of_length_pos h
  have hx' := List.mem_filter.mp hx
  exact List.find?_isSome.mpr ⟨x, hx'.1, hx'.2⟩

/-- With both parents owned and the link already present, `addAppToProject`
returns true and leaves the store untouched. -/
theorem addAppToProject_existing {db : DB} {uid pid aid : String}
    (i : String) (t : Nat)
    (hproj : (db.projects.find? (ownedProject uid pid)).isSome = true)
    (happ : (db.apps.find? (ownedApp uid aid)).isSome = true)
    (hlink : (db.projectApps.find? (linkRow pid aid)).isSome = true) :
    ProjectsService.addAppToProject uid pid aid i t db = (true, db) := by
  obtain ⟨p, hp⟩ := Option.isSome_iff_exists.mp hproj
  obtain ⟨a, ha⟩ := Option.isSome_iff_exists.mp happ
  obtain ⟨l, hl⟩ := Option.isSome_iff_exists.mp hlink
  simp [ProjectsService.addAppToProject, hp, ha, hl]

/-- With both parents owned and no existing link, `addAppToProject` appends
exactly one link row. -/
theorem addAppToProject_inserts {db : DB} {uid pid aid : String}
    (i : String) (t : Nat)
    (hproj : (db.projects.find? (ownedProject uid pid)).isSome = true)
    (happ : (db.apps.find? (ownedApp uid aid)).isSome = true)
    (hlink : db.projectApps.find? (linkRow pid aid) = none) :
    ProjectsService.addAppToProject uid pid aid i t db
      = (true, { db with
          projectApps := db.projectApps
              ++ [{ id := i, projectId := pid, appId := aid, addedAt := t }] }) := by
  obtain ⟨p, hp⟩ := Option.isSome_iff_exists.mp hproj
  obtain ⟨a, ha⟩ := Option.isSome_iff_exists.mp happ
  simp [ProjectsService.addAppToProject, hp, ha, hlink]

/-- C4. With project and app both owned by the caller: when the link already
exists the call returns true without inserting a duplicate; starting from no
link, any positive number of calls leaves exactly one link row for the pair;
and the call returns false with the store unchanged whenever the project
lookup or the app lookup fails the ownership-scoped check. -/
theorem addAppToProject_idempotent (db : DB) (uid pid aid newId : String)
    (now : Nat) (ids : Nat → String) (times : Nat → Nat) :
    ((db.projects.find? (ownedProject uid pid)).isSome = true →
     (db.apps.find? (ownedApp uid aid)).isSome = true →
     (db.projectApps.find? (linkRow pid aid)).isSome = true →
      ProjectsService.addAppToProject uid pid aid newId now db = (true, db))
    ∧ (db.projects.find? (ownedProject uid pid) = none →
      ProjectsService.addAppToProject uid pid aid newId now db = (false, db))
    ∧ (db.apps.find? (ownedApp uid aid) = none →
      ProjectsService.addAppToProject uid pid aid newId now db = (false, db))
    ∧ ((db.projects.find? (ownedProject uid pid)).isSome = true →
       (db.apps.find? (ownedApp uid aid)).isSome = true →
      (ProjectsService.addAppToProject uid pid aid newId now db).1 = true)
    ∧ ((db.projects.find? (ownedProject uid pid)).isSome = true →
       (db.apps.find? (ownedApp uid aid)).isSome = true →
       linkCount db pid aid = 0 →
      ∀ n, linkCount (ProjectsService.addAppIter uid pid aid ids times db (n + 1))
          pid aid = 1) := by
  refine ⟨addAppToProject_existing newId now, ?_, ?_, ?_, ?_⟩
  · intro hfp
    simp [ProjectsService.addAppToProject, hfp]
  · intro hfa
    rcases hfp : db.projects.find? (ownedProject uid pid) with _ | p <;>
      simp [ProjectsService.addAppToProject, hfp, hfa]
  · intro hproj happ
    rcases hl : db.projectApps.find? (linkRow pid aid) with _ | l
    · rw [addAppToProject_inserts newId now hproj happ hl]
    · rw [addAppToProject_existing newId now hproj happ (by simp [hl])]
  · intro hproj happ hcount
    have key : ∀ n,
        linkCount (ProjectsService.addAppIter uid pid aid ids times db (n + 1)) pid aid = 1
        ∧ (ProjectsService.addAppIter uid pid aid ids times db (n + 1)).projects
            = db.projects
        ∧ (ProjectsService.addAppIter uid pid aid ids times db (n + 1)).apps
            = db.apps := by
      intro n
      induction n with
      | zero =>
        have hlnone := find?_link_none_of_count_zero hcount
        have hins := addAppToProject_inserts (ids 0) (times 0) hproj happ hlnone
        simp only [ProjectsService.addAppIter, hins]
        refine ⟨?_, by trivial, by trivial⟩
        show ((db.projectApps
            ++ [({ id := ids 0, projectId := pid, appId := aid, addedAt := times 0 }
                  : ProjectApp)]).filter
              (linkRow pid aid)).length = 1
        rw [List.filter_append, List.length_append]
        have h0 : (db.projectApps.filter (linkRow pid aid)).length = 0 := hcount
        rw [h0]
        simp [linkRow]
      | succ m ih =>
        obtain ⟨ihcount, ihproj, ihapps⟩ := ih
        have hproj' : ((ProjectsService.addAppIter uid pid aid ids times db
            (m + 1)).projects.find? (ownedProject uid pid)).isSome = true := by
          rw [ihproj]
          exact hproj
        have happ' : ((ProjectsService.addAppIter uid pid aid ids times db
            (m + 1)).apps.find? (ownedApp uid aid)).isSome = true := by
          rw [ihapps]
          exact happ
        have hlink' : ((ProjectsService.addAppIter uid pid aid ids times db
            (m + 1)).projectApps.find? (linkRow pid aid)).isSome = true :=
          find?_link_isSome_of_count_pos (by rw [ihcount]; omega)
        have heq := addAppToProject_existing (ids (m + 1)) (times (m + 1))
          hproj' happ' hlink'
        have hstep : ProjectsService.addAppIter uid pid aid ids times db (m + 1 + 1)
            = ProjectsService.addAppIter uid pid aid ids times db (m + 1) := by
          show (ProjectsService.addAppToProject uid pid aid (ids (m + 1)) (times (m + 1))
            (ProjectsService.addAppIter uid pid aid ids times db (m + 1))).2
              = ProjectsService.addAppIter uid pid aid ids times db (m + 1)
          rw [heq]
        rw [hstep]
        exact ⟨ihcount, ihproj, ihapps⟩
    intro n
    exact (key n).1

/-- C4 witness: on the linkless sample store, two successive calls leave
exactly one link row; on the linked store the call is a no-op returning true;
an unowned project yields false. -/
theorem addAppToProject_idempotent_witness :
    ((sampleDB.projects.find? (ownedProject "u1" "p1")).isSome = true
      ∧ (sampleDB.apps.find? (ownedApp "u1" "a1")).isSome = true
      ∧ (sampleDB.projectApps.find? (linkRow "p1" "a1")).isSome = true
      ∧ ProjectsService.addAppToProject "u1" "p1" "a1" "l9" 5 sampleDB = (true, sampleDB))
    ∧ (sampleDBNoLink.projects.find? (ownedProject "u2" "p1") = none
      ∧ ProjectsService.addAppToProject "u2" "p1" "a1" "l9" 5 sampleDBNoLink
          = (false, sampleDBNoLink))
    ∧ (linkCount sampleDBNoLink "p1" "a1" = 0
      ∧ linkCount (ProjectsService.addAppIter "u1" "p1" "a1"
          (fun k => String.append "lk" (toString k)) (fun _ => 5) sampleDBNoLink 2)
          "p1" "a1" = 1) :=
  ⟨⟨by decide, by decide, by decide,
    (addAppToProject_idempotent sampleDB "u1" "p1" "a1" "l9" 5
        (fun k => String.append "lk" (toString k)) (fun _ => 5)).1
      (by decide) (by decide) (by decide)⟩,
   ⟨by decide,
    (addAppToProject_idempotent sampleDBNoLink "u2" "p1" "a1" "l9" 5
        (fun k => String.append "lk" (toString k)) (fun _ => 5)).2.1 (by decide)⟩,
   ⟨by decide,
    (addAppToProject_idempotent sampleDBNoLink "u1" "p1" "a1" "l9" 5
        (fun k => String.append "lk" (toString k)) (fun _ => 5)).2.2.2.2
      (by decide) (by decide) (by decide) 1⟩⟩
